import Mathlib

/-!
Verification of the Superstore analytics dashboard
(`Final_Superstore_Berger_Velastegui_Villagomez.py`).

The development is a shallow embedding of the program's two cores:

* the script-level pipeline over the loaded dataset — Filter Engine
  (lines 115–121), empty-selection guard (123–125), scalar KPIs (133–136),
  symmetric color bound (147–149) and the state×region pivot (367–381) —
  modelled over lists of `Row` records with exact rational arithmetic in
  place of floating point;
* the loading pipeline — `data_cleaning` (lines 31–50) and `data_loader`
  (lines 53–77) — modelled over raw delimited tables whose cells are
  `Option String` (`none` is a missing value, pandas `NaN`), with the
  file system abstracted as the list of directories `os.walk` visits in
  traversal order.
-/

namespace Superstore

/-- One row of the loaded dataset, restricted to the columns the
filter/aggregation pipeline reads. Currency and discount values are
modelled as exact rationals. -/
structure Row where
  region : String
  state : String
  category : String
  subCategory : String
  sales : Rat
  profit : Rat
  discount : Rat
deriving DecidableEq

/-! ### Filter Engine (lines 115–121)

The pandas expression builds five boolean masks over the full dataset and
selects the rows where their conjunction holds.  We embed each mask as a
`List Bool` aligned with the dataset and boolean indexing as selection by
mask. -/

/-- Mask of `df_full[c].isin(allowed)`: one boolean per row. -/
def isinMask (vals : List String) (allowed : List String) : List Bool :=
  vals.map (fun x => decide (x ∈ allowed))

/-- Mask of `df_full["Discount"] >= lo`. -/
def geMask (vals : List Rat) (lo : Rat) : List Bool :=
  vals.map (fun x => decide (lo ≤ x))

/-- Mask of `df_full["Discount"] <= hi`. -/
def leMask (vals : List Rat) (hi : Rat) : List Bool :=
  vals.map (fun x => decide (x ≤ hi))

/-- Pointwise `&` of two boolean masks. -/
def andMask (a b : List Bool) : List Bool :=
  List.zipWith and a b

/-- Boolean indexing `df_full[mask]`: keep the rows whose mask entry is
`true`, in order. -/
def boolIndex (rows : List Row) (mask : List Bool) : List Row :=
  (rows.zip mask).filterMap (fun p => if p.2 then some p.1 else none)

/-- The Filtered View `df` of lines 115–121: boolean indexing of the full
dataset by the conjunction of the five masks (the `&` chain associates to
the left, as in the source). The trailing `.copy()` has no observable
effect in the model. -/
def filterView (ds : List Row) (regiones categorias subcats : List String)
    (lo hi : Rat) : List Row :=
  boolIndex ds
    (andMask
      (andMask
        (andMask
          (andMask (isinMask (ds.map Row.region) regiones)
            (isinMask (ds.map Row.category) categorias))
          (isinMask (ds.map Row.subCategory) subcats))
        (geMask (ds.map Row.discount) lo))
      (leMask (ds.map Row.discount) hi))

/-- The row predicate the five masks implement, for specification
statements. -/
def passesFilter (regiones categorias subcats : List String)
    (lo hi : Rat) (r : Row) : Prop :=
  r.region ∈ regiones ∧ r.category ∈ categorias ∧ r.subCategory ∈ subcats ∧
    lo ≤ r.discount ∧ r.discount ≤ hi

instance (regiones categorias subcats : List String) (lo hi : Rat) :
    DecidablePred (passesFilter regiones categorias subcats lo hi) :=
  fun r => by unfold passesFilter; infer_instance

/-! ### Sidebar defaults (lines 85–111) -/

/-- The option/default list `sorted(series.unique())` of the sidebar
multiselects: distinct values in ascending order. (`pandas.unique` keeps
first occurrences; after sorting only the underlying set matters.) -/
def uniqueSorted (l : List String) : List String :=
  l.dedup.insertionSort (fun a b => a ≤ b)

/-- The minimum of a pandas numeric series, as used for the discount
slider bound `df_full["Discount"].min()`. Defined on nonempty lists; the
`[]` case is junk (pandas would give `NaN`). -/
def seriesMin : List Rat → Rat
  | [] => 0
  | x :: xs => xs.foldl min x

/-- The maximum of a pandas numeric series
(`df_full["Discount"].max()`). -/
def seriesMax : List Rat → Rat
  | [] => 0
  | x :: xs => xs.foldl max x

/-! ### Scalar KPIs (lines 133–136) -/

/-- `total_sales = df["Sales"].sum()`. -/
def total_sales (v : List Row) : Rat :=
  (v.map Row.sales).sum

/-- `total_profit = df["Profit"].sum()`. -/
def total_profit (v : List Row) : Rat :=
  (v.map Row.profit).sum

/-- `avg_discount = df["Discount"].mean()` — the sum divided by the row
count. -/
def avg_discount (v : List Row) : Rat :=
  (v.map Row.discount).sum / (v.length : Rat)

/-- `profit_margin = (total_profit / total_sales) if total_sales else 0`:
Python truthiness of a number is being nonzero. -/
def profit_margin (v : List Row) : Rat :=
  if total_sales v = 0 then 0 else total_profit v / total_sales v

/-! ### Symmetric color bound (lines 147–149) -/

/-- `max_abs = max(abs(df["Profit"].min()), abs(df["Profit"].max()))`,
replaced by `1.0` when it equals `0`. -/
def max_abs (v : List Row) : Rat :=
  let m := max |seriesMin (v.map Row.profit)| |seriesMax (v.map Row.profit)|
  if m = 0 then 1 else m

/-! ### State×Region pivot (lines 367–381)

`df.groupby(["State","Region"])["Profit"].sum().unstack().fillna(0)`
produces a matrix with one row per distinct state and one column per
distinct region; a cell holds the profit sum of its (state, region)
group, and `fillna(0)` makes an absent group contribute `0` — which is
exactly the sum over the (empty) set of matching rows.  The matrix is
then sorted ascending by row total and truncated to 25 rows. -/

/-- Cell of the unstacked pivot after `fillna(0)`: profit summed over the
rows of the (state, region) group, `0` when the group is absent. -/
def cellSum (v : List Row) (s r : String) : Rat :=
  ((v.filter (fun w => decide (w.state = s) && decide (w.region = r))).map Row.profit).sum

/-- Column labels of the pivot: the distinct regions (groupby sorts its
keys ascending). -/
def pivotCols (v : List Row) : List String :=
  uniqueSorted (v.map Row.region)

/-- One pivot row: the cells of state `s` across the region columns. -/
def pivotRowVals (v : List Row) (s : String) : List Rat :=
  (pivotCols v).map (cellSum v s)

/-- `pivot["Total"] = pivot.sum(axis=1)`: the row total of state `s`
across the region columns. -/
def rowTotal (v : List Row) (s : String) : Rat :=
  (pivotRowVals v s).sum

/-- Row labels after `sort_values("Total")`: all distinct states, sorted
ascending by row-total profit. -/
def pivotStatesAll (v : List Row) : List String :=
  (uniqueSorted (v.map Row.state)).insertionSort
    (fun a b => rowTotal v a ≤ rowTotal v b)

/-- `MAX_STATES = 25` of line 379. -/
def MAX_STATES : Nat := 25

/-- Row labels after the `pivot.head(MAX_STATES)` truncation of lines
380–381 (taking the first 25 also covers the guarded `shape` test). -/
def pivotStates (v : List Row) : List String :=
  (pivotStatesAll v).take MAX_STATES

/-! ### Render pass (lines 123 onward) -/

/-- The aggregate outputs a render pass computes from a non-empty
Filtered View. -/
structure Aggregates where
  totalSales : Rat
  totalProfit : Rat
  avgDiscount : Rat
  profitMargin : Rat
  maxAbs : Rat
  pivotRows : List String
deriving DecidableEq

/-- The Aggregation Layer on a Filtered View. -/
def aggregate (v : List Row) : Aggregates :=
  { totalSales := total_sales v
    totalProfit := total_profit v
    avgDiscount := avg_discount v
    profitMargin := profit_margin v
    maxAbs := max_abs v
    pivotRows := pivotStates v }

/-- The script's render pass from the full dataset and the sidebar
selection: compute the Filtered View; if it is empty, warn and stop
(`st.warning`/`st.stop`, lines 123–125), modelled as `none`; otherwise
run the Aggregation Layer. -/
def renderPass (ds : List Row) (regiones categorias subcats : List String)
    (lo hi : Rat) : Option Aggregates :=
  let v := filterView ds regiones categorias subcats lo hi
  if v.isEmpty then none else some (aggregate v)

/-! ### Type Coercion (`data_cleaning`, lines 31–50)

A raw delimited table is modelled with every cell an `Option String`
(`none` is an empty cell, pandas `NaN`); `pd.read_csv`'s own numeric
inference is subsumed by the coercion pass, which attempts the same
parse.  A cleaned table is a list of named, typed columns. -/

/-- A raw cell as read from the delimited file: `none` is a missing
value. -/
abbrev Cell := Option String

/-- A raw table: the header row and the data rows. -/
structure Table where
  header : List String
  rows : List (List Cell)
deriving DecidableEq

/-- A value of a cleaned column: a parsed number, a parsed calendar
date, a piece of text, or a missing value (`NaN`/`NaT`). -/
inductive Value where
  | num (q : Rat)
  | date (y m d : Nat)
  | text (s : String)
  | missing
deriving DecidableEq

/-- A cleaned table: named columns of typed values. -/
abbrev CleanTable := List (String × List Value)

/-- Column labels of a cleaned table (`df.columns`). -/
def columnsOf (ct : CleanTable) : List String :=
  ct.map Prod.fst

/-- Look a column of a cleaned table up by name. -/
def getColumn (ct : CleanTable) (name : String) : Option (List Value) :=
  (ct.find? (fun c => c.1 == name)).map Prod.snd

/-- Decimal digit test. -/
def isDigitCh (c : Char) : Bool :=
  '0' ≤ c && c ≤ '9'

/-- Numeric value of a digit string. -/
def natOfDigits (ds : List Char) : Nat :=
  ds.foldl (fun a c => 10 * a + (c.toNat - 48)) 0

/-- The regex replacement `str.replace('[$,]', '', regex=True)`: delete
every `$` and `,` character. -/
def stripCurrency (s : String) : String :=
  String.mk (s.toList.filter (fun c => c != '$' && c != ','))

/-- Model of `pd.to_numeric` on one string: an optional sign, an integer
part and an optional fractional part, exact as a rational (built with
`mkRat` over integer arithmetic). (Exponent forms and infinities, which
pandas also accepts, are outside the model; no claim depends on
them.) -/
def parseNumber (s : String) : Option Rat :=
  let cs := s.toList
  let neg := cs.head? == some '-'
  let cs2 := if neg || cs.head? == some '+' then cs.drop 1 else cs
  let ip := cs2.takeWhile isDigitCh
  let rest := cs2.dropWhile isDigitCh
  let sgn : Int := if neg then -1 else 1
  if rest.isEmpty then
    if ip.isEmpty then none
    else some (mkRat (sgn * (natOfDigits ip : Int)) 1)
  else if rest.head? == some '.' then
    let fp := rest.drop 1
    if fp.all isDigitCh && (!ip.isEmpty || !fp.isEmpty) then
      some (mkRat
        (sgn * ((natOfDigits ip * 10 ^ fp.length + natOfDigits fp : Nat) : Int))
        (10 ^ fp.length))
    else none
  else none

/-- Model of `pd.to_datetime` on one string: an ISO `YYYY-MM-DD` date
with plausibility bounds on month and day. (pandas accepts many more
formats; the claims only need that some strings parse as dates and
others do not.) -/
def parseDate (s : String) : Option Value :=
  match s.toList.splitOn '-' with
  | [ys, ms, ds] =>
    if !ys.isEmpty && ys.all isDigitCh &&
        !ms.isEmpty && ms.all isDigitCh &&
        !ds.isEmpty && ds.all isDigitCh then
      let m := natOfDigits ms
      let d := natOfDigits ds
      if 1 ≤ m && m ≤ 12 && 1 ≤ d && d ≤ 31 then
        some (Value.date (natOfDigits ys) m d)
      else none
    else none
  | _ => none

/-- First coercion attempt of the per-column loop:
`pd.to_numeric(df[col].str.replace('[$,]', '', regex=True))`.  The whole
column parses or the attempt fails (`pd.to_numeric` raises on the first
bad element); a missing cell passes through as `NaN`. -/
def tryNumeric (col : List Cell) : Option (List Value) :=
  col.mapM (fun c =>
    match c with
    | none => some Value.missing
    | some s => (parseNumber (stripCurrency s)).map Value.num)

/-- Second coercion attempt: `pd.to_datetime(df[col])`, again
all-or-nothing, with missing cells passing through as `NaT`. -/
def tryDatetime (col : List Cell) : Option (List Value) :=
  col.mapM (fun c =>
    match c with
    | none => some Value.missing
    | some s => parseDate s)

/-- A column left as text when both parses fail. -/
def textColumn (col : List Cell) : List Value :=
  col.map (fun c =>
    match c with
    | none => Value.missing
    | some s => Value.text s)

/-- The ordered per-column heuristic of lines 36–48: try numeric, on
failure try datetime, otherwise leave the column as text. -/
def coerceColumn (col : List Cell) : List Value :=
  match tryNumeric col with
  | some vs => vs
  | none =>
    match tryDatetime col with
    | some vs => vs
    | none => textColumn col

/-- Accumulator pass behind `dropDupRows`: keep the rows not seen
before. -/
def dropDupAux : List (List Cell) → List (List Cell) → List (List Cell)
  | [], _ => []
  | r :: rest, seen =>
    if r ∈ seen then dropDupAux rest seen
    else r :: dropDupAux rest (r :: seen)

/-- `df.drop_duplicates()` (line 32): remove the rows identical to an
earlier row, keeping first occurrences in order. -/
def dropDupRows (rows : List (List Cell)) : List (List Cell) :=
  dropDupAux rows []

/-- Build the cleaned columns: the column of header entry `j` collects
the `j`-th cell of every row (a short row reads as missing). -/
def colsFrom (names : List String) (j : Nat) (rows : List (List Cell)) :
    CleanTable :=
  match names with
  | [] => []
  | n :: ns => (n, coerceColumn (rows.map (fun r => r.getD j none))) :: colsFrom ns (j + 1) rows

/-- `data_cleaning` (lines 31–50): drop duplicate rows, then run the
ordered type-coercion heuristic on every column. (In the model every raw
column is an object column, so the `dtype == object` guard of line 36 is
always taken; pandas' `read_csv` would pre-parse fully numeric columns,
with the same end result.) -/
def data_cleaning (t : Table) : CleanTable :=
  colsFrom t.header 0 (dropDupRows t.rows)

/-! ### Dataset Locator & Loader (`data_loader`, lines 53–77) -/

/-- `pd.to_datetime(df["Order Date"], errors="coerce")` (line 64) on one
already-coerced value: dates stay, parseable text becomes a date,
unparseable text and missing become the null-date marker `NaT`.  (On an
all-numeric column pandas would read numbers as epoch offsets; no claim
depends on that corner, and the model sends them to `NaT`.) -/
def toDatetimeCoerce : Value → Value
  | Value.date y m d => Value.date y m d
  | Value.text s => (parseDate s).getD Value.missing
  | Value.missing => Value.missing
  | Value.num _ => Value.missing

/-- `pd.to_numeric(df[col], errors="coerce").fillna(0)` (line 68) on one
value: numbers stay, parseable text becomes its number, everything else
becomes `NaN` and is then filled with `0`. -/
def toNumericFill : Value → Value
  | Value.num q => Value.num q
  | Value.text s => Value.num ((parseNumber s).getD 0)
  | Value.missing => Value.num 0
  | Value.date _ _ _ => Value.num 0

/-- `astype(str)` (line 72) on one value: every value becomes its text
rendering; in particular a missing value becomes the literal string
"nan" (Python `str(float('nan'))`).  The renderings of numbers and dates
stand in for Python's; no claim depends on their exact spelling. -/
def astypeStrVal : Value → Value
  | Value.num q => Value.text (toString q.num ++ (if q.den = 1 then "" else "/" ++ toString q.den))
  | Value.date y m d => Value.text (toString y ++ "-" ++ toString m ++ "-" ++ toString d)
  | Value.text s => Value.text s
  | Value.missing => Value.text "nan"

/-- `fillna(repl)` on one value: replace a missing value, keep the
rest. -/
def fillnaVal (repl : String) : Value → Value
  | Value.missing => Value.text repl
  | v => v

/-- Apply `f` to the named column when present; a table without the
column is unchanged (the `if col in df.columns` guards of lines 67 and
71). -/
def mapColVals (ct : CleanTable) (name : String) (f : Value → Value) :
    CleanTable :=
  ct.map (fun c => if c.1 = name then (c.1, c.2.map f) else c)

/-- The four numeric business columns of line 66. -/
def numericCols : List String :=
  ["Sales", "Profit", "Discount", "Quantity"]

/-- The seven categorical columns of line 70. -/
def categoricalCols : List String :=
  ["Region", "State", "City", "Category", "Sub-Category", "Segment", "Customer ID"]

/-- The dataset-specific normalization of lines 64–72, run once the
"Order Date" column is known to exist: reparse the order date, coerce
and zero-fill the numeric columns, stringify the categorical columns and
fill missing entries with "Unknown" — in the source's order
`astype(str)` runs first and `fillna` second. -/
def normalize (ct : CleanTable) : CleanTable :=
  categoricalCols.foldl
    (fun t c => mapColVals t c (fun v => fillnaVal "Unknown" (astypeStrVal v)))
    (numericCols.foldl (fun t c => mapColVals t c toNumericFill)
      (mapColVals ct "Order Date" toDatetimeCoerce))

/-- Lines 61–74 on one located file: clean it; if the cleaned table has
an "Order Date" column, normalize and return it, otherwise report no
result (the `for` loop then continues with the next directory). -/
def loadFile (t : Table) : Option CleanTable :=
  if "Order Date" ∈ columnsOf (data_cleaning t) then
    some (normalize (data_cleaning t))
  else none

/-- One directory `os.walk` yields: its path and the named files it
holds, each with the table its contents parse to. -/
structure DirEntry where
  path : String
  files : List (String × Table)
deriving DecidableEq

/-- The search tree under `Path.home()`: the root's name and the
directories in the order `os.walk` visits them. -/
structure FileSystem where
  root : String
  dirs : List DirEntry
deriving DecidableEq

/-- The membership test `nombre_archivo in files` followed by the read:
the content of the directory's file of that name, when present. -/
def findFile (d : DirEntry) (name : String) : Option Table :=
  (d.files.find? (fun f => f.1 == name)).map Prod.snd

/-- The body of the walk loop on one directory: a cleaned, normalized
table when the directory holds a file of the target name whose contents
pass the "Order Date" gate. -/
def usableIn (name : String) (d : DirEntry) : Option CleanTable :=
  match findFile d name with
  | some t => loadFile t
  | none => none

/-- The `for root, dirs, files in os.walk(...)` loop of lines 58–74. -/
def walkLoad (name : String) : List DirEntry → Option CleanTable
  | [] => none
  | d :: rest =>
    match usableIn name d with
    | some t => some t
    | none => walkLoad name rest

/-- The `FileNotFoundError` message of line 77, naming the target file
and the search root. -/
def errMsg (fs : FileSystem) (name : String) : String :=
  "No se encontró '" ++ name ++ "' en ninguna carpeta dentro de " ++ fs.root

/-- `data_loader` (lines 53–77): walk the directory tree; return the
first usable table, or raise `FileNotFoundError` when the walk finishes
empty-handed.  (`@st.cache_data` memoization is not claim-relevant and
is not modelled.) -/
def data_loader (fs : FileSystem) (name : String) : Except String CleanTable :=
  match walkLoad name fs.dirs with
  | some t => Except.ok t
  | none => Except.error (errMsg fs name)

/-- The claim's side condition for C2, in the spec's words: a file with
exactly the target name exists somewhere under the search root. -/
def existsFileNamed (fs : FileSystem) (name : String) : Bool :=
  fs.dirs.any (fun d => d.files.any (fun f => f.1 == name))

instance : DecidableEq (Except String CleanTable) := fun a b =>
  match a, b with
  | Except.ok x, Except.ok y =>
    decidable_of_iff (x = y) (by simp)
  | Except.error x, Except.error y =>
    decidable_of_iff (x = y) (by simp)
  | Except.ok _, Except.error _ => isFalse (fun h => Except.noConfusion h)
  | Except.error _, Except.ok _ => isFalse (fun h => Except.noConfusion h)

/-! ## Lemmas about the Filter Engine -/

theorem andMask_map {α : Type} (l : List α) (f g : α → Bool) :
    andMask (l.map f) (l.map g) = l.map (fun x => f x && g x) := by
  induction l with
  | nil => rfl
  | cons a l _ih => simp [andMask]

theorem boolIndex_map (ds : List Row) (f : Row → Bool) :
    boolIndex ds (ds.map f) = ds.filter f := by
  induction ds with
  | nil => rfl
  | cons r ds ih =>
    simp only [boolIndex] at ih
    by_cases h : f r <;> simp [boolIndex, List.filter_cons, h, ih]

/-- The five-mask boolean indexing of lines 115–121 is list filtering by
the conjunction of the row predicates. -/
theorem filterView_eq_filter (ds : List Row) (regs cats subs : List String)
    (lo hi : Rat) :
    filterView ds regs cats subs lo hi =
      ds.filter (fun r =>
        decide (r.region ∈ regs) && decide (r.category ∈ cats) &&
          decide (r.subCategory ∈ subs) && decide (lo ≤ r.discount) &&
          decide (r.discount ≤ hi)) := by
  unfold filterView isinMask geMask leMask
  simp only [List.map_map, Function.comp, andMask_map, boolIndex_map]

/-- C1. For every dataset and every filter selection, the Filtered View
is a sublist of the dataset (hence a subset that preserves the dataset's
original row order), and it contains exactly the rows whose region,
category and sub-category lie in the selected sets and whose discount
lies in the inclusive interval. -/
theorem C1_filter_engine (ds : List Row) (regs cats subs : List String)
    (lo hi : Rat) :
    (filterView ds regs cats subs lo hi).Sublist ds ∧
    ∀ r : Row, r ∈ filterView ds regs cats subs lo hi ↔
      r ∈ ds ∧ r.region ∈ regs ∧ r.category ∈ cats ∧ r.subCategory ∈ subs ∧
        lo ≤ r.discount ∧ r.discount ≤ hi := by
  rw [filterView_eq_filter]
  refine ⟨List.filter_sublist _, fun r => ?_⟩
  simp [List.mem_filter, and_assoc]

/-! ## Lemmas about series minima and maxima -/

theorem foldl_min_le_init (xs : List Rat) (a : Rat) : xs.foldl min a ≤ a := by
  induction xs generalizing a with
  | nil => exact le_refl a
  | cons y ys ih => exact le_trans (ih (min a y)) (min_le_left a y)

theorem foldl_min_le_mem (xs : List Rat) (a x : Rat) (hx : x ∈ xs) :
    xs.foldl min a ≤ x := by
  induction xs generalizing a with
  | nil => cases hx
  | cons y ys ih =>
    rcases List.mem_cons.mp hx with h | h
    · rw [h]
      exact le_trans (foldl_min_le_init ys (min a y)) (min_le_right a y)
    · exact ih _ h

theorem le_foldl_max_init (xs : List Rat) (a : Rat) : a ≤ xs.foldl max a := by
  induction xs generalizing a with
  | nil => exact le_refl a
  | cons y ys ih => exact le_trans (le_max_left a y) (ih (max a y))

theorem le_foldl_max_mem (xs : List Rat) (a x : Rat) (hx : x ∈ xs) :
    x ≤ xs.foldl max a := by
  induction xs generalizing a with
  | nil => cases hx
  | cons y ys ih =>
    rcases List.mem_cons.mp hx with h | h
    · rw [h]
      exact le_trans (le_max_right a y) (le_foldl_max_init ys (max a y))
    · exact ih _ h

theorem seriesMin_le (l : List Rat) (x : Rat) (hx : x ∈ l) :
    seriesMin l ≤ x := by
  cases l with
  | nil => cases hx
  | cons y ys =>
    rcases List.mem_cons.mp hx with h | h
    · rw [h]; exact foldl_min_le_init ys y
    · exact foldl_min_le_mem ys y x h

theorem le_seriesMax (l : List Rat) (x : Rat) (hx : x ∈ l) :
    x ≤ seriesMax l := by
  cases l with
  | nil => cases hx
  | cons y ys =>
    rcases List.mem_cons.mp hx with h | h
    · rw [h]; exact le_foldl_max_init ys y
    · exact le_foldl_max_mem ys y x h

theorem foldl_min_mem (xs : List Rat) (a : Rat) :
    xs.foldl min a = a ∨ xs.foldl min a ∈ xs := by
  induction xs generalizing a with
  | nil => exact Or.inl rfl
  | cons y ys ih =>
    rcases ih (min a y) with h | h
    · rcases min_choice a y with hm | hm
      · exact Or.inl (h.trans hm)
      · exact Or.inr (List.mem_cons.mpr (Or.inl (h.trans hm)))
    · exact Or.inr (List.mem_cons.mpr (Or.inr h))

theorem foldl_max_mem (xs : List Rat) (a : Rat) :
    xs.foldl max a = a ∨ xs.foldl max a ∈ xs := by
  induction xs generalizing a with
  | nil => exact Or.inl rfl
  | cons y ys ih =>
    rcases ih (max a y) with h | h
    · rcases max_choice a y with hm | hm
      · exact Or.inl (h.trans hm)
      · exact Or.inr (List.mem_cons.mpr (Or.inl (h.trans hm)))
    · exact Or.inr (List.mem_cons.mpr (Or.inr h))

theorem seriesMin_mem (l : List Rat) (h : l ≠ []) : seriesMin l ∈ l := by
  cases l with
  | nil => exact absurd rfl h
  | cons y ys =>
    rcases foldl_min_mem ys y with hm | hm
    · show ys.foldl min y ∈ y :: ys
      rw [hm]
      exact List.mem_cons_self y ys
    · exact List.mem_cons.mpr (Or.inr hm)

theorem seriesMax_mem (l : List Rat) (h : l ≠ []) : seriesMax l ∈ l := by
  cases l with
  | nil => exact absurd rfl h
  | cons y ys =>
    rcases foldl_max_mem ys y with hm | hm
    · show ys.foldl max y ∈ y :: ys
      rw [hm]
      exact List.mem_cons_self y ys
    · exact List.mem_cons.mpr (Or.inr hm)

theorem mem_uniqueSorted (x : String) (l : List String) :
    x ∈ uniqueSorted l ↔ x ∈ l := by
  simp [uniqueSorted]

/-- C9. The sidebar's default selection — every distinct region,
category and sub-category of the dataset, and the dataset's own discount
minimum and maximum as the slider bounds — filters the dataset to
itself. -/
theorem C9_full_domain_identity (ds : List Row) :
    filterView ds (uniqueSorted (ds.map Row.region))
      (uniqueSorted (ds.map Row.category))
      (uniqueSorted (ds.map Row.subCategory))
      (seriesMin (ds.map Row.discount)) (seriesMax (ds.map Row.discount)) = ds := by
  rw [filterView_eq_filter]
  apply List.filter_eq_self.mpr
  intro r hr
  simp only [Bool.and_eq_true, decide_eq_true_eq, mem_uniqueSorted]
  exact ⟨⟨⟨⟨List.mem_map_of_mem Row.region hr, List.mem_map_of_mem Row.category hr⟩,
    List.mem_map_of_mem Row.subCategory hr⟩,
    seriesMin_le _ _ (List.mem_map_of_mem Row.discount hr)⟩,
    le_seriesMax _ _ (List.mem_map_of_mem Row.discount hr)⟩

/-! ## Empty-selection guard -/

/-- C5. A render pass halts (with the warning of line 124) exactly when
the Filtered View is empty, and otherwise produces precisely the
Aggregation Layer's output on the Filtered View — so aggregation is only
ever invoked on a non-empty view. -/
theorem C5_empty_selection_guard (ds : List Row)
    (regs cats subs : List String) (lo hi : Rat) :
    (renderPass ds regs cats subs lo hi = none ↔
      filterView ds regs cats subs lo hi = []) ∧
    (renderPass ds regs cats subs lo hi =
        some (aggregate (filterView ds regs cats subs lo hi)) ↔
      filterView ds regs cats subs lo hi ≠ []) := by
  unfold renderPass
  by_cases h : filterView ds regs cats subs lo hi = [] <;>
    simp [h]

/-! ## Scalar KPIs -/

/-- C6. On a non-empty Filtered View the KPIs are the column sums, the
discount mean is the sum over the count, and the profit margin is the
exact ratio of total profit to total sales — except that it is literally
`0` when total sales is `0`, so no division by zero is ever taken. -/
theorem C6_scalar_kpis (v : List Row) (_h : v ≠ []) :
    total_sales v = (v.map Row.sales).sum ∧
    total_profit v = (v.map Row.profit).sum ∧
    avg_discount v = (v.map Row.discount).sum / (v.length : Rat) ∧
    (total_sales v = 0 → profit_margin v = 0) ∧
    (total_sales v ≠ 0 → profit_margin v * total_sales v = total_profit v) := by
  refine ⟨rfl, rfl, rfl, fun h0 => by simp [profit_margin, h0], fun h0 => ?_⟩
  rw [profit_margin, if_neg h0]
  exact div_mul_cancel₀ _ h0

/-- Witness for C6 on the one-row view of the spec's first scenario. -/
theorem C6_scalar_kpis_witness :
    total_sales [⟨"East", "Ohio", "Furniture", "Chairs", 100, 20, 1/10⟩] =
      (([⟨"East", "Ohio", "Furniture", "Chairs", 100, 20, 1/10⟩] : List Row).map Row.sales).sum ∧
    total_profit [⟨"East", "Ohio", "Furniture", "Chairs", 100, 20, 1/10⟩] =
      (([⟨"East", "Ohio", "Furniture", "Chairs", 100, 20, 1/10⟩] : List Row).map Row.profit).sum ∧
    avg_discount [⟨"East", "Ohio", "Furniture", "Chairs", 100, 20, 1/10⟩] =
      (([⟨"East", "Ohio", "Furniture", "Chairs", 100, 20, 1/10⟩] : List Row).map Row.discount).sum /
        (([⟨"East", "Ohio", "Furniture", "Chairs", 100, 20, 1/10⟩] : List Row).length : Rat) ∧
    (total_sales [⟨"East", "Ohio", "Furniture", "Chairs", 100, 20, 1/10⟩] = 0 →
      profit_margin [⟨"East", "Ohio", "Furniture", "Chairs", 100, 20, 1/10⟩] = 0) ∧
    (total_sales [⟨"East", "Ohio", "Furniture", "Chairs", 100, 20, 1/10⟩] ≠ 0 →
      profit_margin [⟨"East", "Ohio", "Furniture", "Chairs", 100, 20, 1/10⟩] *
        total_sales [⟨"East", "Ohio", "Furniture", "Chairs", 100, 20, 1/10⟩] =
        total_profit [⟨"East", "Ohio", "Furniture", "Chairs", 100, 20, 1/10⟩]) :=
  C6_scalar_kpis [⟨"East", "Ohio", "Furniture", "Chairs", 100, 20, 1/10⟩] (by decide)

/-! ## Symmetric color bound -/

theorem max_abs_eq (v : List Row) :
    max_abs v =
      if max |seriesMin (v.map Row.profit)| |seriesMax (v.map Row.profit)| = 0
      then 1
      else max |seriesMin (v.map Row.profit)| |seriesMax (v.map Row.profit)| := rfl

/-- C4, amended. On a non-empty Filtered View the symmetric color bound
dominates the magnitude of every profit value, and equals `1` whenever
all profits are `0`.  (The converse of the second part is false: see the
counterexample `C4_color_bound_cex`.) -/
theorem C4_color_bound (v : List Row) (h : v ≠ []) :
    (∀ p ∈ v.map Row.profit, |p| ≤ max_abs v) ∧
    ((∀ p ∈ v.map Row.profit, p = 0) → max_abs v = 1) := by
  have hne : v.map Row.profit ≠ [] := by
    simpa using h
  constructor
  · intro p hp
    have h1 : seriesMin (v.map Row.profit) ≤ p := seriesMin_le _ _ hp
    have h2 : p ≤ seriesMax (v.map Row.profit) := le_seriesMax _ _ hp
    have habs : |p| ≤ max |seriesMin (v.map Row.profit)| |seriesMax (v.map Row.profit)| := by
      apply abs_le.mpr
      constructor
      · have hm1 : -(max |seriesMin (v.map Row.profit)| |seriesMax (v.map Row.profit)|) ≤
            -|seriesMin (v.map Row.profit)| := neg_le_neg (le_max_left _ _)
        have hm2 : -|seriesMin (v.map Row.profit)| ≤ seriesMin (v.map Row.profit) :=
          neg_abs_le _
        exact le_trans hm1 (le_trans hm2 h1)
      · exact le_trans h2 (le_trans (le_abs_self _) (le_max_right _ _))
    rw [max_abs_eq]
    split_ifs with h0
    · exact le_trans habs (h0 ▸ zero_le_one)
    · exact habs
  · intro hz
    have hmin : seriesMin (v.map Row.profit) = 0 := hz _ (seriesMin_mem _ hne)
    have hmax : seriesMax (v.map Row.profit) = 0 := hz _ (seriesMax_mem _ hne)
    rw [max_abs_eq]
    simp [hmin, hmax]

/-- Witness for C4 on a one-row view with profit 5. -/
theorem C4_color_bound_witness :
    (∀ p ∈ ([⟨"East", "Ohio", "Furniture", "Chairs", 100, 5, 0⟩] : List Row).map Row.profit,
      |p| ≤ max_abs [⟨"East", "Ohio", "Furniture", "Chairs", 100, 5, 0⟩]) ∧
    ((∀ p ∈ ([⟨"East", "Ohio", "Furniture", "Chairs", 100, 5, 0⟩] : List Row).map Row.profit,
        p = 0) →
      max_abs [⟨"East", "Ohio", "Furniture", "Chairs", 100, 5, 0⟩] = 1) :=
  C4_color_bound [⟨"East", "Ohio", "Furniture", "Chairs", 100, 5, 0⟩] (by decide)

/-- Counterexample to C4 as stated: a Filtered View (obtained from a
one-row dataset by a filter that keeps it) whose only profit value is
`1`, not `0`, yet whose color bound is exactly `1` — so `max_abs = 1.0`
does not imply that all profits are `0`. -/
theorem C4_color_bound_cex :
    filterView [⟨"East", "Ohio", "Furniture", "Chairs", 100, 1, 0⟩]
        ["East"] ["Furniture"] ["Chairs"] 0 0 =
      [⟨"East", "Ohio", "Furniture", "Chairs", 100, 1, 0⟩] ∧
    max_abs [⟨"East", "Ohio", "Furniture", "Chairs", 100, 1, 0⟩] = 1 ∧
    Row.profit ⟨"East", "Ohio", "Furniture", "Chairs", 100, 1, 0⟩ = 1 ∧
    (1 : Rat) ≠ 0 := by
  refine ⟨by decide, by decide, rfl, by norm_num⟩

/-! ## State×Region pivot -/

theorem sum_ite_point (x : String) (c : Rat) :
    ∀ R : List String, R.Nodup → x ∈ R →
      (R.map (fun r => if x = r then c else 0)).sum = c := by
  intro R
  induction R with
  | nil => intro _ hx; cases hx
  | cons a R ih =>
    intro hnd hx
    rcases List.mem_cons.mp hx with h | h
    · have hna : x ∉ R := h ▸ (List.nodup_cons.mp hnd).1
      have hz : ∀ r ∈ R, (if x = r then c else (0 : Rat)) = 0 := by
        intro r hr
        apply if_neg
        intro he
        rw [he] at hna
        exact hna hr
      rw [List.map_cons, List.sum_cons, if_pos h, List.map_congr_left hz]
      simp
    · have hxa : x ≠ a := by
        intro he
        rw [← he] at hnd
        exact (List.nodup_cons.mp hnd).1 h
      rw [List.map_cons, List.sum_cons, if_neg hxa,
        ih (List.nodup_cons.mp hnd).2 h, zero_add]

theorem cellSum_cons (w : Row) (v : List Row) (s r : String) :
    cellSum (w :: v) s r =
      (if w.state = s ∧ w.region = r then w.profit else 0) + cellSum v s r := by
  by_cases hs : w.state = s ∧ w.region = r <;>
    simp [cellSum, List.filter_cons, hs]

/-- Summing a state's pivot cells across a duplicate-free set of region
columns that covers all its rows yields the state's total profit: the
region columns partition the rows of the state group. -/
theorem sum_cells_partition (s : String) :
    ∀ (v : List Row) (R : List String), R.Nodup →
      (∀ w ∈ v, w.state = s → w.region ∈ R) →
      (R.map (fun r => cellSum v s r)).sum =
        ((v.filter (fun w => decide (w.state = s))).map Row.profit).sum := by
  intro v
  induction v with
  | nil =>
    intro R _ _
    have hz : ∀ r ∈ R, cellSum [] s r = (0 : Rat) := fun r _ => rfl
    rw [List.map_congr_left hz]
    simp
  | cons w v ih =>
    intro R hnd hcov
    have hcov' : ∀ w' ∈ v, w'.state = s → w'.region ∈ R :=
      fun w' hw' => hcov w' (List.mem_cons_of_mem _ hw')
    have hmapeq : R.map (fun r => cellSum (w :: v) s r) =
        R.map (fun r =>
          (if w.state = s ∧ w.region = r then w.profit else 0) + cellSum v s r) :=
      List.map_congr_left (fun r _ => cellSum_cons w v s r)
    rw [hmapeq, List.sum_map_add, List.filter_cons]
    by_cases hs : w.state = s
    · have hreg : w.region ∈ R := hcov w (List.mem_cons_self w v) hs
      have hpoint :
          (R.map (fun r => if w.state = s ∧ w.region = r then w.profit else 0)).sum =
            w.profit := by
        have heq : (R.map (fun r => if w.state = s ∧ w.region = r then w.profit else 0)) =
            R.map (fun r => if w.region = r then w.profit else 0) :=
          List.map_congr_left (fun r _ => by simp [hs])
        rw [heq]
        exact sum_ite_point w.region w.profit R hnd hreg
      rw [hpoint, ih R hnd hcov']
      simp [hs]
    · have hzero :
          (R.map (fun r => if w.state = s ∧ w.region = r then w.profit else 0)).sum = 0 := by
        have heq : (R.map (fun r => if w.state = s ∧ w.region = r then w.profit else 0)) =
            R.map (fun _ => (0 : Rat)) :=
          List.map_congr_left (fun r _ => by simp [hs])
        rw [heq]
        simp
      rw [hzero, ih R hnd hcov', zero_add]
      simp [hs]

theorem uniqueSorted_nodup (l : List String) : (uniqueSorted l).Nodup :=
  ((List.perm_insertionSort (fun a b : String => a ≤ b) l.dedup).nodup_iff).mpr
    l.nodup_dedup

theorem pivotStatesAll_sorted (v : List Row) :
    (pivotStatesAll v).Pairwise (fun a b => rowTotal v a ≤ rowTotal v b) := by
  haveI : IsTotal String (fun a b => rowTotal v a ≤ rowTotal v b) :=
    ⟨fun a b => le_total _ _⟩
  haveI : IsTrans String (fun a b => rowTotal v a ≤ rowTotal v b) :=
    ⟨fun _ _ _ h1 h2 => le_trans h1 h2⟩
  exact List.sorted_insertionSort _ _

/-- C8. On a non-empty Filtered View the state×region pivot: its rows
are sorted ascending by row-total profit (the worst state first), at
most 25 of them are kept, every kept row label is a state of the view,
a row's total is exactly the state's total profit, and every cell is the
profit sum of its (state, region) group — `0` when the group is
absent. -/
theorem C8_state_region_pivot (v : List Row) (_h : v ≠ []) :
    (pivotStates v).Pairwise (fun a b => rowTotal v a ≤ rowTotal v b) ∧
    (pivotStates v).length ≤ 25 ∧
    (∀ s ∈ pivotStates v, s ∈ v.map Row.state) ∧
    (∀ s, rowTotal v s =
      ((v.filter (fun w => decide (w.state = s))).map Row.profit).sum) ∧
    (∀ s r, cellSum v s r =
      ((v.filter (fun w => decide (w.state = s) && decide (w.region = r))).map
        Row.profit).sum) := by
  refine ⟨?_, ?_, ?_, ?_, fun s r => rfl⟩
  · exact List.Pairwise.sublist (List.take_sublist _ _) (pivotStatesAll_sorted v)
  · exact List.length_take_le _ _
  · intro s hs
    have h1 : s ∈ pivotStatesAll v := List.take_subset _ _ hs
    have h2 : s ∈ uniqueSorted (v.map Row.state) := by
      simpa [pivotStatesAll] using h1
    exact (mem_uniqueSorted s _).mp h2
  · intro s
    exact sum_cells_partition s v (pivotCols v)
      (uniqueSorted_nodup _)
      (fun w hw _ => (mem_uniqueSorted _ _).mpr (List.mem_map_of_mem Row.region hw))

/-- Witness for C8 on the spec's two-row scenario view. -/
theorem C8_state_region_pivot_witness :
    (pivotStates [⟨"West", "California", "Furniture", "Tables", 200, -50, 1/2⟩,
        ⟨"East", "Ohio", "Furniture", "Chairs", 100, 20, 1/10⟩]).Pairwise
      (fun a b =>
        rowTotal [⟨"West", "California", "Furniture", "Tables", 200, -50, 1/2⟩,
          ⟨"East", "Ohio", "Furniture", "Chairs", 100, 20, 1/10⟩] a ≤
        rowTotal [⟨"West", "California", "Furniture", "Tables", 200, -50, 1/2⟩,
          ⟨"East", "Ohio", "Furniture", "Chairs", 100, 20, 1/10⟩] b) ∧
    (pivotStates [⟨"West", "California", "Furniture", "Tables", 200, -50, 1/2⟩,
        ⟨"East", "Ohio", "Furniture", "Chairs", 100, 20, 1/10⟩]).length ≤ 25 ∧
    (∀ s ∈ pivotStates [⟨"West", "California", "Furniture", "Tables", 200, -50, 1/2⟩,
        ⟨"East", "Ohio", "Furniture", "Chairs", 100, 20, 1/10⟩],
      s ∈ ([⟨"West", "California", "Furniture", "Tables", 200, -50, 1/2⟩,
        ⟨"East", "Ohio", "Furniture", "Chairs", 100, 20, 1/10⟩] : List Row).map Row.state) ∧
    (∀ s, rowTotal [⟨"West", "California", "Furniture", "Tables", 200, -50, 1/2⟩,
        ⟨"East", "Ohio", "Furniture", "Chairs", 100, 20, 1/10⟩] s =
      ((([⟨"West", "California", "Furniture", "Tables", 200, -50, 1/2⟩,
        ⟨"East", "Ohio", "Furniture", "Chairs", 100, 20, 1/10⟩] : List Row).filter
          (fun w => decide (w.state = s))).map Row.profit).sum) ∧
    (∀ s r, cellSum [⟨"West", "California", "Furniture", "Tables", 200, -50, 1/2⟩,
        ⟨"East", "Ohio", "Furniture", "Chairs", 100, 20, 1/10⟩] s r =
      ((([⟨"West", "California", "Furniture", "Tables", 200, -50, 1/2⟩,
        ⟨"East", "Ohio", "Furniture", "Chairs", 100, 20, 1/10⟩] : List Row).filter
          (fun w => decide (w.state = s) && decide (w.region = r))).map Row.profit).sum) :=
  C8_state_region_pivot
    [⟨"West", "California", "Furniture", "Tables", 200, -50, 1/2⟩,
      ⟨"East", "Ohio", "Furniture", "Chairs", 100, 20, 1/10⟩] (by decide)

/-! ## Type Coercion -/

/-- C7. The per-column coercion heuristic: the currency-stripping
numeric parse is attempted first and its result is final when it
succeeds; the date parse is attempted exactly when the numeric parse
fails, and its result is final when it succeeds; when both fail the
column is left as its unchanged text; and the column of `"$1,200"` and
`"$950"` becomes the numbers `1200` and `950`.  (`coerceColumn` is a
total function, so no input makes the coercion raise.) -/
theorem C7_type_coercion (col : List Cell) :
    (∀ vs, tryNumeric col = some vs → coerceColumn col = vs) ∧
    (∀ vs, tryNumeric col = none → tryDatetime col = some vs →
      coerceColumn col = vs) ∧
    (tryNumeric col = none → tryDatetime col = none →
      coerceColumn col = textColumn col) ∧
    coerceColumn [some "$1,200", some "$950"] = [Value.num 1200, Value.num 950] := by
  refine ⟨?_, ?_, ?_, by decide⟩
  · intro vs h
    unfold coerceColumn
    rw [h]
  · intro vs hn hd
    unfold coerceColumn
    rw [hn, hd]
  · intro hn hd
    unfold coerceColumn
    rw [hn, hd]

/-- Witness for C7: one column per branch of the heuristic — a numeric
column, a date column and a text column. -/
theorem C7_type_coercion_witness :
    coerceColumn [some "12"] = [Value.num 12] ∧
    coerceColumn [some "2015-01-03"] = [Value.date 2015 1 3] ∧
    coerceColumn [some "East"] = [Value.text "East"] :=
  ⟨(C7_type_coercion [some "12"]).1 [Value.num 12] (by decide),
   (C7_type_coercion [some "2015-01-03"]).2.1 [Value.date 2015 1 3]
     (by decide) (by decide),
   by
    have h := (C7_type_coercion [some "East"]).2.2.1 (by decide) (by decide)
    rw [h]
    decide⟩

/-! ## Loader lemmas -/

theorem columnsOf_mapColVals (ct : CleanTable) (name : String)
    (f : Value → Value) :
    columnsOf (mapColVals ct name f) = columnsOf ct := by
  unfold columnsOf mapColVals
  rw [List.map_map]
  apply List.map_congr_left
  intro c _
  by_cases h : c.1 = name <;> simp [Function.comp, h]

theorem columnsOf_foldl_mapColVals (cs : List String) (f : Value → Value) :
    ∀ ct : CleanTable,
      columnsOf (cs.foldl (fun t c => mapColVals t c f) ct) = columnsOf ct := by
  induction cs with
  | nil => intro ct; rfl
  | cons c cs ih =>
    intro ct
    rw [List.foldl_cons, ih, columnsOf_mapColVals]

theorem columnsOf_normalize (ct : CleanTable) :
    columnsOf (normalize ct) = columnsOf ct := by
  unfold normalize
  rw [columnsOf_foldl_mapColVals, columnsOf_foldl_mapColVals,
    columnsOf_mapColVals]

theorem loadFile_eq_some (t : Table) (ct : CleanTable) :
    loadFile t = some ct ↔
      "Order Date" ∈ columnsOf (data_cleaning t) ∧
        ct = normalize (data_cleaning t) := by
  unfold loadFile
  by_cases h : "Order Date" ∈ columnsOf (data_cleaning t) <;>
    simp [h, eq_comm]

theorem usableIn_eq_some (name : String) (d : DirEntry) (ct : CleanTable) :
    usableIn name d = some ct ↔
      ∃ tbl, findFile d name = some tbl ∧ loadFile tbl = some ct := by
  unfold usableIn
  cases h : findFile d name <;> simp [h]

theorem walkLoad_eq_none (name : String) :
    ∀ dirs : List DirEntry,
      walkLoad name dirs = none ↔ ∀ d ∈ dirs, usableIn name d = none := by
  intro dirs
  induction dirs with
  | nil => simp [walkLoad]
  | cons d rest ih =>
    cases hu : usableIn name d <;> simp [walkLoad, hu, ih]

theorem walkLoad_some (name : String) :
    ∀ dirs : List DirEntry, ∀ t : CleanTable, walkLoad name dirs = some t →
      ∃ d ∈ dirs, usableIn name d = some t := by
  intro dirs
  induction dirs with
  | nil => intro t h; cases h
  | cons d rest ih =>
    intro t h
    cases hu : usableIn name d with
    | some t' =>
      rw [walkLoad, hu] at h
      exact ⟨d, List.mem_cons_self d rest, hu.trans h⟩
    | none =>
      rw [walkLoad, hu] at h
      obtain ⟨d', hd', hu'⟩ := ih t h
      exact ⟨d', List.mem_cons_of_mem _ hd', hu'⟩

theorem walkLoad_first (name : String) :
    ∀ (ds1 : List DirEntry) (d : DirEntry) (ds2 : List DirEntry)
      (t : CleanTable),
      (∀ d' ∈ ds1, usableIn name d' = none) → usableIn name d = some t →
      walkLoad name (ds1 ++ d :: ds2) = some t := by
  intro ds1
  induction ds1 with
  | nil =>
    intro d ds2 t _ hu
    rw [List.nil_append, walkLoad, hu]
  | cons e ds1 ih =>
    intro d ds2 t h1 hu
    have he : usableIn name e = none := h1 e (List.mem_cons_self e ds1)
    rw [List.cons_append, walkLoad, he]
    exact ih d ds2 t (fun d' hd' => h1 d' (List.mem_cons_of_mem _ hd')) hu

/-! ## Locator & Loader claims -/

/-- C2, amended. The loader returns the table of the first name-matching
file whose cleaned contents pass the "Order Date" gate, and it raises
the `FileNotFoundError` naming the file and the search root exactly when
no directory under the root yields such a file — merely containing a
file of the target name is not enough (see `C2_loader_search_cex`). -/
theorem C2_loader_search (fs : FileSystem) (name : String) :
    (data_loader fs name = Except.error (errMsg fs name) ↔
      ∀ d ∈ fs.dirs, usableIn name d = none) ∧
    (∀ (ds1 : List DirEntry) (d : DirEntry) (ds2 : List DirEntry)
      (t : CleanTable),
      fs.dirs = ds1 ++ d :: ds2 → (∀ d' ∈ ds1, usableIn name d' = none) →
      usableIn name d = some t → data_loader fs name = Except.ok t) := by
  constructor
  · unfold data_loader
    cases hw : walkLoad name fs.dirs with
    | some t =>
      constructor
      · intro h; exact absurd h (by simp)
      · intro hall
        have hn := (walkLoad_eq_none name fs.dirs).mpr hall
        rw [hw] at hn
        cases hn
    | none =>
      constructor
      · intro _; exact (walkLoad_eq_none name fs.dirs).mp hw
      · intro _; rfl
  · intro ds1 d ds2 t hdirs h1 hu
    unfold data_loader
    rw [hdirs, walkLoad_first name ds1 d ds2 t h1 hu]

/-- Witness for C2: a walk whose first directory holds a name-matching
file without an "Order Date" column and whose second holds a usable one
loads the second file's table. -/
theorem C2_loader_search_witness :
    data_loader
      ⟨"HOME",
        [⟨"HOME/docs", [("superstore.csv", ⟨["Region"], [[some "East"]]⟩)]⟩,
         ⟨"HOME/data",
          [("superstore.csv", ⟨["Order Date"], [[some "2015-01-03"]]⟩)]⟩]⟩
      "superstore.csv" =
      Except.ok [("Order Date", [Value.date 2015 1 3])] :=
  (C2_loader_search
    ⟨"HOME",
      [⟨"HOME/docs", [("superstore.csv", ⟨["Region"], [[some "East"]]⟩)]⟩,
       ⟨"HOME/data",
        [("superstore.csv", ⟨["Order Date"], [[some "2015-01-03"]]⟩)]⟩]⟩
    "superstore.csv").2
    [⟨"HOME/docs", [("superstore.csv", ⟨["Region"], [[some "East"]]⟩)]⟩]
    ⟨"HOME/data", [("superstore.csv", ⟨["Order Date"], [[some "2015-01-03"]]⟩)]⟩
    [] [("Order Date", [Value.date 2015 1 3])] rfl (by decide) (by decide)

/-- Counterexample to C2 as stated: a root whose only directory holds a
file named exactly `superstore.csv` — yet the loader raises the
NotFound error, because the file's contents lack an "Order Date" column.
So "raises NotFound iff no file with that name exists under the root"
is false of the code. -/
theorem C2_loader_search_cex :
    existsFileNamed
      ⟨"HOME", [⟨"HOME/docs", [("superstore.csv", ⟨["Region"], [[some "East"]]⟩)]⟩]⟩
      "superstore.csv" = true ∧
    data_loader
      ⟨"HOME", [⟨"HOME/docs", [("superstore.csv", ⟨["Region"], [[some "East"]]⟩)]⟩]⟩
      "superstore.csv" =
      Except.error (errMsg
        ⟨"HOME", [⟨"HOME/docs", [("superstore.csv", ⟨["Region"], [[some "East"]]⟩)]⟩]⟩
        "superstore.csv") := by
  constructor
  · decide
  · rfl

/-- C10. The loader's "Order Date" gate: every table the loader returns
has an "Order Date" column; a directory whose name-matching file fails
the gate is skipped and the walk continues with the remaining
directories; and when every name-matching file under the root cleans to
a table without an "Order Date" column the loader raises the NotFound
error even though files of the target name exist. -/
theorem C10_order_date_gate (fs : FileSystem) (name : String) :
    (∀ t, data_loader fs name = Except.ok t → "Order Date" ∈ columnsOf t) ∧
    (∀ d rest, fs.dirs = d :: rest → usableIn name d = none →
      data_loader fs name = data_loader ⟨fs.root, rest⟩ name) ∧
    ((∀ d ∈ fs.dirs, ∀ p ∈ d.files, p.1 = name →
        "Order Date" ∉ columnsOf (data_cleaning p.2)) →
      data_loader fs name = Except.error (errMsg fs name)) := by
  refine ⟨?_, ?_, ?_⟩
  · intro t h
    unfold data_loader at h
    cases hw : walkLoad name fs.dirs with
    | none => rw [hw] at h; cases h
    | some t' =>
      rw [hw] at h
      have ht : t' = t := by
        cases h; rfl
      obtain ⟨d, _, hu⟩ := walkLoad_some name fs.dirs t' hw
      obtain ⟨tbl, _, hl⟩ := (usableIn_eq_some name d t').mp hu
      obtain ⟨hod, hnorm⟩ := (loadFile_eq_some tbl t').mp hl
      rw [← ht, hnorm, columnsOf_normalize]
      exact hod
  · intro d rest hdirs hu
    unfold data_loader
    rw [hdirs, walkLoad, hu]
    rfl
  · intro hno
    have hall : ∀ d ∈ fs.dirs, usableIn name d = none := by
      intro d hd
      unfold usableIn
      cases hf : findFile d name with
      | none => rfl
      | some tbl =>
        unfold findFile at hf
        cases hfind : d.files.find? (fun f => f.1 == name) with
        | none => rw [hfind] at hf; cases hf
        | some p =>
          rw [hfind] at hf
          have hp2 : p.2 = tbl := by
            cases hf; rfl
          have hmem : p ∈ d.files := List.mem_of_find?_eq_some hfind
          have hname : p.1 = name := by
            have hb := List.find?_some hfind
            exact beq_iff_eq.mp hb
          have hod := hno d hd p hmem hname
          rw [hp2] at hod
          show (if "Order Date" ∈ columnsOf (data_cleaning tbl) then
              some (normalize (data_cleaning tbl)) else none) = none
          exact if_neg hod
    unfold data_loader
    rw [(walkLoad_eq_none name fs.dirs).mpr hall]

/-- Witness for C10: the gate holds of a loaded table, a gate-failing
directory is skipped in favor of a later usable one, and a walk all of
whose name-matches fail the gate errors. -/
theorem C10_order_date_gate_witness :
    "Order Date" ∈ columnsOf [("Order Date", [Value.date 2015 1 3])] ∧
    data_loader
      ⟨"HOME",
        [⟨"HOME/docs", [("superstore.csv", ⟨["City"], [[some "Lima"]]⟩)]⟩,
         ⟨"HOME/tmp",
          [("superstore.csv", ⟨["Order Date"], [[some "2016-02-04"]]⟩)]⟩]⟩
      "superstore.csv" =
      data_loader
        ⟨"HOME",
          [⟨"HOME/tmp",
            [("superstore.csv", ⟨["Order Date"], [[some "2016-02-04"]]⟩)]⟩]⟩
        "superstore.csv" ∧
    data_loader
      ⟨"HOME", [⟨"HOME/misc", [("superstore.csv", ⟨["City"], [[some "Lima"]]⟩)]⟩]⟩
      "superstore.csv" =
      Except.error (errMsg
        ⟨"HOME", [⟨"HOME/misc", [("superstore.csv", ⟨["City"], [[some "Lima"]]⟩)]⟩]⟩
        "superstore.csv") :=
  ⟨(C10_order_date_gate
      ⟨"HOME", [⟨"HOME/x", [("superstore.csv", ⟨["Order Date"], [[some "2015-01-03"]]⟩)]⟩]⟩
      "superstore.csv").1 [("Order Date", [Value.date 2015 1 3])] (by decide),
   (C10_order_date_gate
      ⟨"HOME",
        [⟨"HOME/docs", [("superstore.csv", ⟨["City"], [[some "Lima"]]⟩)]⟩,
         ⟨"HOME/tmp",
          [("superstore.csv", ⟨["Order Date"], [[some "2016-02-04"]]⟩)]⟩]⟩
      "superstore.csv").2.1
      ⟨"HOME/docs", [("superstore.csv", ⟨["City"], [[some "Lima"]]⟩)]⟩
      [⟨"HOME/tmp", [("superstore.csv", ⟨["Order Date"], [[some "2016-02-04"]]⟩)]⟩]
      rfl (by decide),
   (C10_order_date_gate
      ⟨"HOME", [⟨"HOME/misc", [("superstore.csv", ⟨["City"], [[some "Lima"]]⟩)]⟩]⟩
      "superstore.csv").2.2 (by decide)⟩

/-- C3 exhibits a code bug: on a `superstore.csv` whose Region column
has a missing value, the loader returns the string "nan" — not the
sentinel "Unknown" — for that cell, because line 72 runs `astype(str)`
(which renders `NaN` as the string "nan") before `fillna("Unknown")`,
leaving the `fillna` nothing to fill. -/
theorem C3_categorical_fill_bug :
    data_loader
      ⟨"HOME", [⟨"HOME/data",
        [("superstore.csv",
          ⟨["Order Date", "Region"],
           [[some "2015-01-03", some "East"], [some "2015-01-04", none]]⟩)]⟩]⟩
      "superstore.csv" =
      Except.ok [("Order Date", [Value.date 2015 1 3, Value.date 2015 1 4]),
                 ("Region", [Value.text "East", Value.text "nan"])] ∧
    getColumn [("Order Date", [Value.date 2015 1 3, Value.date 2015 1 4]),
               ("Region", [Value.text "East", Value.text "nan"])] "Region" =
      some [Value.text "East", Value.text "nan"] ∧
    Value.text "nan" ≠ Value.text "Unknown" := by
  refine ⟨by decide, by decide, by decide⟩

end Superstore
